import Mathlib

/-!
Verification development for the zam-gateway repository: a shallow embedding of
the scoring router (`router` package), the in-memory rate limiter (`core`
package), the chat dispatcher's streaming and buffered send callbacks
(`handler` package), and the HTTP worker adapter's SSE processing loop
(`worker` package), together with theorems settling the specification's claims.

Embedding conventions:
- Go `uint64` fields become `Nat`, Go `int` fields become `Int` (no claim here
  depends on fixed-width overflow).
- Go `float64` scores become `ℚ`; the score expressions are products and
  quotients of small clamped percentages, and the selection claims are
  order-theoretic, so exact rational arithmetic stands in for IEEE doubles.
- A worker's `Heartbeat(ctx)` call is modelled by an `Option WorkerProfile`
  carried by the worker value: `none` is a heartbeat error, `some p` is the
  profile the call returns during the one `Select` traversal.
- Fallible Go functions return `Except String α`; a Go `error` value is
  modelled by its message `String`.
- `json.Unmarshal` of an SSE payload is abstracted as an explicit
  `decode : String → Option ChatCompletionStreamResponse` parameter.
-/

namespace ZamGateway

/-! ## Core data model (`zam/core`, src/unnamed/part_004) -/

/-- `core.WorkerProfile`: a worker's current state and capabilities. -/
structure WorkerProfile where
  workerID : String
  supported : List String
  totalVRAM : Nat
  availableVRAM : Nat
  activeTasks : Int
  maxTasks : Int
deriving DecidableEq

/-- A worker as the router sees it: its `ID()` and the outcome of the one
`Heartbeat(ctx)` call `Select` makes for it (`none` models a heartbeat error). -/
structure Worker where
  id : String
  heartbeat : Option WorkerProfile
deriving DecidableEq

/-- `openai.Message`. -/
structure Message where
  role : String
  content : String
deriving DecidableEq

/-- `core.InferenceRequest`. -/
structure InferenceRequest where
  traceID : String
  model : String
  messages : List Message
  temperature : ℚ
  stream : Bool
deriving DecidableEq

/-- `core.StreamChunk`: a single chunk of streaming response.  The Go `error`
field is modelled by an optional message. -/
structure StreamChunk where
  content : String
  finishReason : String
  error : Option String
deriving DecidableEq

/-! ## String helpers

Go's `strings.Contains`, `strings.HasPrefix`, `strings.TrimPrefix`,
`strings.ToLower` and `strings.EqualFold`, written over the character list of a
`String` so that they compute by kernel reduction. -/

/-- Does the first character list start with the second? -/
def charsStartWith : List Char → List Char → Bool
  | _, [] => true
  | [], _ :: _ => false
  | c :: cs, d :: ds => c = d && charsStartWith cs ds

/-- Does the first character list contain the second as a contiguous run? -/
def charsContain : List Char → List Char → Bool
  | [], pat => pat.isEmpty
  | c :: cs, pat => charsStartWith (c :: cs) pat || charsContain cs pat

/-- `strings.Contains s sub`. -/
def strContains (s sub : String) : Bool := charsContain s.data sub.data

/-- `strings.HasPrefix s pat`. -/
def strStartsWith (s pat : String) : Bool := charsStartWith s.data pat.data

/-- Drop the first `n` characters of a string (`strings.TrimPrefix` once the
prefix is known to be present and `n` characters long). -/
def strDropChars (s : String) (n : Nat) : String := ⟨s.data.drop n⟩

/-- `strings.ToLower` (ASCII letters; the model names and worker IDs the
claims quantify over are ASCII). -/
def toLowerStr (s : String) : String := ⟨s.data.map Char.toLower⟩

/-! ## Scoring router (`zam/router`, src/unnamed/part_002) -/

/-- One gibibyte, in bytes. -/
def GiB : Nat := 1024 * 1024 * 1024

/-- `estimateModelVRAM`: substring heuristic over the lowercased model name. -/
def estimateModelVRAM (model : String) : Nat :=
  let modelLower := toLowerStr model
  if strContains modelLower "8b" || strContains modelLower "7b" then
    6 * GiB
  else if strContains modelLower "13b" || strContains modelLower "14b" then
    12 * GiB
  else if strContains modelLower "30b" || strContains modelLower "34b" || strContains modelLower "32b" then
    20 * GiB
  else if strContains modelLower "70b" || strContains modelLower "72b" || strContains modelLower "67b" then
    40 * GiB
  else
    2 * GiB

/-- `isModelSupported`: the model is admitted if some supported entry is `"*"`
or equals the model case-insensitively (`strings.EqualFold`). -/
def isModelSupported (model : String) (supported : List String) : Bool :=
  supported.any (fun s => s = "*" || toLowerStr s = toLowerStr model)

/-- `isFallbackWorker`: the lowercased worker ID contains `"fallback"` or
`"cloud"`. -/
def isFallbackWorker (workerID : String) : Bool :=
  let idLower := toLowerStr workerID
  strContains idLower "fallback" || strContains idLower "cloud"

/-- `calculateVRAMScore`: `clamp((availableVRAM / totalVRAM) * 100, 0, 100)`,
zero when `totalVRAM = 0`. -/
def calculateVRAMScore (availableVRAM totalVRAM : Nat) : ℚ :=
  if totalVRAM = 0 then 0
  else
    let percentage : ℚ := (availableVRAM : ℚ) / (totalVRAM : ℚ) * 100
    if 100 < percentage then 100
    else if percentage < 0 then 0
    else percentage

/-- `calculateLoadScore`: available-capacity percentage, zero when
`maxTasks ≤ 0` or the worker is at or over its cap. -/
def calculateLoadScore (activeTasks maxTasks : Int) : ℚ :=
  if maxTasks ≤ 0 then 0
  else if maxTasks ≤ activeTasks then 0
  else
    let availableCapacity : ℚ := ((maxTasks - activeTasks : Int) : ℚ) / (maxTasks : ℚ) * 100
    if 100 < availableCapacity then 100 else availableCapacity

/-- `workerScore`: a candidate worker with its profile and precomputed scores. -/
structure workerScore where
  worker : Worker
  profile : WorkerProfile
  vramScore : ℚ
  loadScore : ℚ
deriving DecidableEq

/-- `ScoreRouter`: configurable scoring weights. -/
structure ScoreRouter where
  vramWeight : ℚ
  loadWeight : ℚ
deriving DecidableEq

/-- `NewScoreRouter`: default weights, both `1.0`. -/
def NewScoreRouter : ScoreRouter := { vramWeight := 1, loadWeight := 1 }

/-- Phase 1 of `ScoreRouter.Select`: traverse the workers, remembering the
last fallback worker whose heartbeat succeeded and collecting, in traversal
order, the non-fallback workers that pass the three hard filters. -/
def selectLoop (model : String) (requiredVRAM : Nat) :
    List Worker → Option Worker → List workerScore → Option Worker × List workerScore
  | [], fallbackWorker, candidateWorkers => (fallbackWorker, candidateWorkers)
  | w :: ws, fallbackWorker, candidateWorkers =>
    match w.heartbeat with
    | none => selectLoop model requiredVRAM ws fallbackWorker candidateWorkers
    | some profile =>
      if isFallbackWorker w.id then
        selectLoop model requiredVRAM ws (some w) candidateWorkers
      else if !(isModelSupported model profile.supported) then
        selectLoop model requiredVRAM ws fallbackWorker candidateWorkers
      else if profile.availableVRAM < requiredVRAM then
        selectLoop model requiredVRAM ws fallbackWorker candidateWorkers
      else if profile.maxTasks ≤ profile.activeTasks then
        selectLoop model requiredVRAM ws fallbackWorker candidateWorkers
      else
        selectLoop model requiredVRAM ws fallbackWorker
          (candidateWorkers ++
            [{ worker := w, profile := profile,
               vramScore := calculateVRAMScore profile.availableVRAM profile.totalVRAM,
               loadScore := calculateLoadScore profile.activeTasks profile.maxTasks }])

/-- The composite score `totalScore := c.vramScore*vramWeight +
c.loadScore*loadWeight` that `selectBestWorker` computes for one candidate. -/
def combinedScore (vramWeight loadWeight : ℚ) (c : workerScore) : ℚ :=
  c.vramScore * vramWeight + c.loadScore * loadWeight

/-- The loop of `selectBestWorker`: keep the best worker seen so far, replacing
it only on a strictly greater combined score. -/
def selectBestGo (vramWeight loadWeight : ℚ) :
    List workerScore → Option Worker → ℚ → Option Worker
  | [], bestWorker, _ => bestWorker
  | c :: cs, bestWorker, bestScore =>
    let totalScore := combinedScore vramWeight loadWeight c
    if bestScore < totalScore then
      selectBestGo vramWeight loadWeight cs (some c.worker) totalScore
    else
      selectBestGo vramWeight loadWeight cs bestWorker bestScore

/-- `selectBestWorker`: highest combined score wins, starting from a `nil`
best worker and a best score of `-1`. -/
def selectBestWorker (candidates : List workerScore) (vramWeight loadWeight : ℚ) :
    Option Worker :=
  selectBestGo vramWeight loadWeight candidates none (-1)

/-- `ScoreRouter.Select`.  The Go method returns a possibly-nil interface value
together with a possibly-nil error; the pair is modelled as
`Except String (Option Worker)`. -/
def ScoreRouter.Select (r : ScoreRouter) (workers : List Worker)
    (req : InferenceRequest) : Except String (Option Worker) :=
  match selectLoop req.model (estimateModelVRAM req.model) workers none [] with
  | (fallbackWorker, candidateWorkers) =>
    if candidateWorkers.isEmpty then
      match fallbackWorker with
      | some fb => .ok (some fb)
      | none => .error "no available workers for request"
    else
      .ok (selectBestWorker candidateWorkers r.vramWeight r.loadWeight)

/-- Modelled from the spec: the VRAM-estimation substring table of §4.3, rows
in list order, first matching row wins, default 2 GiB.  Used only to state the
refinement claim about `estimateModelVRAM`. -/
def vramTableSpec : List (List String × Nat) :=
  [(["8b", "7b"], 6 * GiB),
   (["13b", "14b"], 12 * GiB),
   (["30b", "34b", "32b"], 20 * GiB),
   (["70b", "72b", "67b"], 40 * GiB)]

/-- Modelled from the spec: first-match lookup in `vramTableSpec` over the
lowercased model name. -/
def estimateModelVRAMSpec (model : String) : Nat :=
  let modelLower := toLowerStr model
  match vramTableSpec.find? (fun row => row.1.any (fun sub => strContains modelLower sub)) with
  | some row => row.2
  | none => 2 * GiB

/-! ## Rate limiter (`core.InMemoryRateLimiter`, src/unnamed/part_005)

The `balances map[string]int` ledger is modelled as an association list with
Go-map semantics: `mapGet` is lookup, `mapSet` is insert-or-replace. -/

/-- Lookup in the ledger (`balance, exists := r.balances[apiKey]`). -/
def mapGet (m : List (String × Int)) (k : String) : Option Int :=
  match m with
  | [] => none
  | (k', v) :: rest => if k' = k then some v else mapGet rest k

/-- Insert-or-replace in the ledger (`r.balances[apiKey] = v`). -/
def mapSet (m : List (String × Int)) (k : String) (v : Int) : List (String × Int) :=
  match m with
  | [] => [(k, v)]
  | (k', v') :: rest => if k' = k then (k, v) :: rest else (k', v') :: mapSet rest k v

/-- `NewInMemoryRateLimiter`: ledger with the hard-coded test account. -/
def NewInMemoryRateLimiter : List (String × Int) := [("test-key-123", 100)]

/-- `InMemoryRateLimiter.Allow`: `false` for an unknown key, else
`balance > 0`; never an error. -/
def RateLimiterAllow (balances : List (String × Int)) (apiKey : String) :
    Except String Bool :=
  match mapGet balances apiKey with
  | none => .ok false
  | some balance => .ok (decide (0 < balance))

/-- The ledger after `InMemoryRateLimiter.Consume`: `r.balances[apiKey] -=
actualTokens`, where a missing key reads as `0` and the write creates the
entry.  Overdraft is allowed. -/
def consumeBalances (balances : List (String × Int)) (apiKey : String)
    (actualTokens : Int) : List (String × Int) :=
  mapSet balances apiKey ((mapGet balances apiKey).getD 0 - actualTokens)

/-- `InMemoryRateLimiter.Consume`: always returns `ok` with the updated
ledger. -/
def RateLimiterConsume (balances : List (String × Int)) (apiKey : String)
    (actualTokens : Int) : Except String (List (String × Int)) :=
  .ok (consumeBalances balances apiKey actualTokens)

/-! ## Chat dispatcher send callbacks (`zam/handler`, src/unnamed/part_000)

The dispatcher writes SSE frames to the client; a written frame is modelled by
the fields of it that the claims talk about: a `data:` frame by the
`delta.content` and optional `finish_reason` it serializes, an `event: <type>`
frame by its message and type, and the literal terminator `data: [DONE]`. -/

/-- One frame written to the HTTP response. -/
inductive SSEFrame where
  | dataFrame (content : String) (finishReason : Option String)
  | errorEvent (message errType : String)
  | doneFrame
deriving DecidableEq

/-- `estimateTokens`: `len([]rune(text))`, the number of unicode code points. -/
def estimateTokens (text : String) : Nat := text.length

/-- The streaming quota ceiling `maxAllowed` of `handleStreamRequest`. -/
def maxAllowed : Nat := 50

/-- State threaded through the streaming branch's sender callback: the running
`totalTokens` counter and the frames written so far. -/
structure StreamDispatchState where
  totalTokens : Nat
  frames : List SSEFrame
deriving DecidableEq

/-- The `data:` frame `handleStreamRequest` writes for a content chunk
(`finish_reason` is set only when the chunk's is non-empty). -/
def mkDataFrame (chunk : StreamChunk) : SSEFrame :=
  .dataFrame chunk.content (if chunk.finishReason = "" then none else some chunk.finishReason)

/-- The streaming branch's `senderFunc`: forward an error chunk as an `error`
event and fail; otherwise add the chunk's code points to `totalTokens`, trip
the quota if the new total exceeds `maxAllowed` (writing a `quota_error` event
and failing without writing the chunk), else write the chunk as a `data:`
frame. -/
def streamSenderFunc (st : StreamDispatchState) (chunk : StreamChunk) :
    StreamDispatchState × Option String :=
  match chunk.error with
  | some e =>
    ({ st with frames := st.frames ++ [.errorEvent e "server_error"] }, some e)
  | none =>
    let totalTokens := st.totalTokens + estimateTokens chunk.content
    if maxAllowed < totalTokens then
      ({ totalTokens := totalTokens,
         frames := st.frames ++ [.errorEvent "Token quota exceeded mid-stream" "quota_error"] },
       some "quota exceeded")
    else
      ({ totalTokens := totalTokens, frames := st.frames ++ [mkDataFrame chunk] }, none)

/-- State threaded through the buffered branch's sender callback:
`fullContent` accumulates chunk contents, `totalTokens` counts UTF-8 bytes. -/
structure NonStreamState where
  fullContent : String
  totalTokens : Nat
deriving DecidableEq

/-- The buffered branch's sender callback: fail on an error chunk, else append
the content and add its byte length (`len(chunk.Content)`). -/
def nonStreamSenderFunc (st : NonStreamState) (chunk : StreamChunk) :
    NonStreamState × Option String :=
  match chunk.error with
  | some e => (st, some e)
  | none =>
    ({ fullContent := st.fullContent ++ chunk.content,
       totalTokens := st.totalTokens + chunk.content.utf8ByteSize }, none)

/-- A worker delivering chunks to a sender callback in order, stopping at the
first callback error (the backpressure contract every adapter obeys). -/
def deliverChunks {σ : Type} (sender : σ → StreamChunk → σ × Option String) :
    List StreamChunk → σ → σ × Option String
  | [], st => (st, none)
  | c :: cs, st =>
    match sender st c with
    | (st', none) => deliverChunks sender cs st'
    | (st', some e) => (st', some e)

/-- One `worker.Execute` call as the dispatcher observes it: the worker emits
`chunks` through `sender` in order (aborting on a sender error), and, if every
send succeeded, finishes with `workerResult` (`none` for a clean return,
`some e` for a worker-side failure such as a timeout). -/
def workerExecuteRun {σ : Type} (sender : σ → StreamChunk → σ × Option String)
    (chunks : List StreamChunk) (workerResult : Option String) (st : σ) :
    σ × Option String :=
  match deliverChunks sender chunks st with
  | (st', none) => (st', workerResult)
  | (st', some e) => (st', some e)

/-- Does a Go error message match `http.ErrHandlerTimeout` or
`context.DeadlineExceeded`? -/
def isTimeoutError (e : String) : Bool :=
  e = "http: Handler timeout" || e = "context deadline exceeded"

/-- Outcome of the streaming branch: the frames written, the ledger after the
request, and the argument of the `limiter.Consume` call if one was made. -/
structure StreamHandlerResult where
  frames : List SSEFrame
  balances : List (String × Int)
  consumed : Option Nat
deriving DecidableEq

/-- `handleStreamRequest` after the headers: run `worker.Execute` with the
streaming sender; on error write the matching `error` event and skip
`Consume`; on success write the literal `data: [DONE]` frame and consume
`totalTokens`. -/
def handleStreamRequest (balances : List (String × Int)) (apiKey : String)
    (chunks : List StreamChunk) (workerResult : Option String) :
    StreamHandlerResult :=
  match workerExecuteRun streamSenderFunc chunks workerResult { totalTokens := 0, frames := [] } with
  | (st, some e) =>
    if isTimeoutError e then
      { frames := st.frames ++ [.errorEvent "Request timeout" "timeout_error"],
        balances := balances, consumed := none }
    else
      { frames := st.frames ++ [.errorEvent e "server_error"],
        balances := balances, consumed := none }
  | (st, none) =>
    { frames := st.frames ++ [.doneFrame],
      balances := consumeBalances balances apiKey (Int.ofNat st.totalTokens),
      consumed := some st.totalTokens }

/-- The JSON reply of the buffered branch: a 200 chat-completion body carrying
`choices[0].message` and its finish reason, or an error body with its HTTP
status. -/
inductive NonStreamReply where
  | okJson (role content finishReason : String)
  | errorJson (status : Nat) (message errType : String)
deriving DecidableEq

/-- Outcome of the buffered branch. -/
structure NonStreamHandlerResult where
  reply : NonStreamReply
  balances : List (String × Int)
  consumed : Option Nat
deriving DecidableEq

/-- `handleNonStreamRequest`: run `worker.Execute` with the accumulating
sender; on error reply 408/500 and skip `Consume`; on success reply with the
accumulated content as `choices[0].message.content` and consume
`totalTokens`. -/
def handleNonStreamRequest (balances : List (String × Int)) (apiKey : String)
    (chunks : List StreamChunk) (workerResult : Option String) :
    NonStreamHandlerResult :=
  match workerExecuteRun nonStreamSenderFunc chunks workerResult { fullContent := "", totalTokens := 0 } with
  | (_, some e) =>
    if isTimeoutError e then
      { reply := .errorJson 408 "Request timeout" "timeout_error",
        balances := balances, consumed := none }
    else
      { reply := .errorJson 500 e "server_error",
        balances := balances, consumed := none }
  | (st, none) =>
    { reply := .okJson "assistant" st.fullContent "stop",
      balances := consumeBalances balances apiKey (Int.ofNat st.totalTokens),
      consumed := some st.totalTokens }

/-! ## HTTP worker adapter (`zam/worker`, src/worker/http_worker.go)

`HTTPWorker.Execute` is modelled from the point where the 200 response body
has been scanned into lines: the loop groups lines into SSE messages at blank
lines and hands each to `processSSEMessage`, processing a trailing unfinished
message at end of input.  `json.Unmarshal` into
`openai.ChatCompletionStreamResponse` is abstracted as `decode`. -/

/-- `openai.Delta`, at the fields the adapter reads. -/
structure Delta where
  content : String
deriving DecidableEq

/-- `openai.StreamChoice`, at the fields the adapter reads. -/
structure StreamChoice where
  delta : Delta
  finishReason : Option String
deriving DecidableEq

/-- `openai.ChatCompletionStreamResponse`, at the fields the adapter reads. -/
structure ChatCompletionStreamResponse where
  choices : List StreamChoice
deriving DecidableEq

/-- The loop over `response.Choices` in `processSSEMessage`: build a neutral
chunk from each choice and send it, stopping at the first sender error. -/
def sendChoiceList {σ : Type} (sender : σ → StreamChunk → σ × Option String) :
    List StreamChoice → σ → σ × Option String
  | [], st => (st, none)
  | choice :: rest, st =>
    let chunk : StreamChunk :=
      { content := choice.delta.content,
        finishReason := choice.finishReason.getD "",
        error := none }
    match sender st chunk with
    | (st', none) => sendChoiceList sender rest st'
    | (st', some e) => (st', some e)

/-- `processSSEMessage`: take the first `data: `-prefixed line's payload (empty
if none); payload `[DONE]` succeeds without emitting anything; otherwise
decode the payload (failure is the parse error) and send every choice. -/
def processSSEMessage {σ : Type}
    (decode : String → Option ChatCompletionStreamResponse)
    (lines : List String) (sender : σ → StreamChunk → σ × Option String)
    (st : σ) : σ × Option String :=
  let data :=
    match lines.find? (fun line => strStartsWith line "data: ") with
    | some line => strDropChars line 6
    | none => ""
  if data = "[DONE]" then (st, none)
  else
    match decode data with
    | none => (st, some "failed to parse SSE data")
    | some response => sendChoiceList sender response.choices st

/-- The scanner loop of `HTTPWorker.Execute`: buffer lines until a blank line,
process the buffered message, abort on its error, and process a trailing
unfinished message at end of input.  Result `none` is Execute returning `ok`. -/
def executeScanLoop {σ : Type}
    (decode : String → Option ChatCompletionStreamResponse)
    (sender : σ → StreamChunk → σ × Option String) :
    List String → List String → σ → σ × Option String
  | [], lineBuffer, st =>
    if lineBuffer.isEmpty then (st, none)
    else processSSEMessage decode lineBuffer sender st
  | line :: rest, lineBuffer, st =>
    if line = "" then
      if lineBuffer.isEmpty then
        executeScanLoop decode sender rest lineBuffer st
      else
        match processSSEMessage decode lineBuffer sender st with
        | (st', none) => executeScanLoop decode sender rest [] st'
        | (st', some e) => (st', some e)
    else
      executeScanLoop decode sender rest (lineBuffer ++ [line]) st

/-! ## Derived quantities used by the claims -/

/-- Total code points of a chunk list's contents. -/
def sumTokens (cs : List StreamChunk) : Nat :=
  (cs.map (fun c => estimateTokens c.content)).sum

/-- Code points a single written frame contributes to `delta.content`. -/
def frameContentTokens : SSEFrame → Nat
  | .dataFrame content _ => estimateTokens content
  | _ => 0

/-- Total code points written across the `delta.content` of a frame list. -/
def writtenContentTokens (frames : List SSEFrame) : Nat :=
  (frames.map frameContentTokens).sum

/-- Concatenation of a chunk list's contents in emission order. -/
def joinContents : List StreamChunk → String
  | [] => ""
  | c :: cs => c.content ++ joinContents cs

/-- A concrete candidate with composite score 100. -/
def poolA : workerScore :=
  { worker := ⟨"a", none⟩, profile := ⟨"a", [], 0, 0, 0, 0⟩,
    vramScore := 50, loadScore := 50 }

/-- A concrete candidate with composite score 170. -/
def poolB : workerScore :=
  { worker := ⟨"b", none⟩, profile := ⟨"b", [], 0, 0, 0, 0⟩,
    vramScore := 80, loadScore := 90 }

/-- A concrete two-candidate pool used to exercise the selection loop. -/
def pool2 : List workerScore := [poolA, poolB]

/-- Total UTF-8 bytes of a chunk list's contents. -/
def sumContentBytes (cs : List StreamChunk) : Nat :=
  (cs.map (fun c => c.content.utf8ByteSize)).sum

/-! ## Helper lemmas -/

theorem mapGet_mapSet_self (m : List (String × Int)) (k : String) (v : Int) :
    mapGet (mapSet m k v) k = some v := by
  induction m with
  | nil => simp [mapGet, mapSet]
  | cons hd tl ih =>
    obtain ⟨k', v'⟩ := hd
    by_cases h : k' = k
    · subst h; simp [mapGet, mapSet]
    · simp [mapGet, mapSet, h, ih]

theorem mapGet_mapSet_ne (m : List (String × Int)) (k k' : String) (v : Int)
    (h : k' ≠ k) : mapGet (mapSet m k v) k' = mapGet m k' := by
  have hkk : ¬ k = k' := fun hk => h hk.symm
  induction m with
  | nil => simp [mapGet, mapSet, hkk]
  | cons hd tl ih =>
    obtain ⟨k₀, v₀⟩ := hd
    by_cases hk : k₀ = k
    · subst hk
      simp [mapGet, mapSet, hkk]
    · simp only [mapSet, if_neg hk, mapGet]
      by_cases hk' : k₀ = k'
      · simp [hk']
      · simp [hk', ih]

/-! ## Claim C6: rate limiter admission -/

/-- Claim C6: for every apiKey, `Allow` returns true if and only if the key
exists in the ledger with a strictly positive balance; an unknown key yields
false, and `Allow` never returns an error. -/
theorem claim_C6_allow (balances : List (String × Int)) (apiKey : String) :
    (RateLimiterAllow balances apiKey = .ok true ↔
      ∃ b, mapGet balances apiKey = some b ∧ 0 < b)
    ∧ (mapGet balances apiKey = none → RateLimiterAllow balances apiKey = .ok false)
    ∧ ∃ r, RateLimiterAllow balances apiKey = .ok r := by
  cases h : mapGet balances apiKey with
  | none =>
    refine ⟨?_, fun _ => by simp [RateLimiterAllow, h], ⟨false, by simp [RateLimiterAllow, h]⟩⟩
    simp [RateLimiterAllow, h]
  | some b =>
    refine ⟨?_, by simp [h], ⟨decide (0 < b), by simp [RateLimiterAllow, h]⟩⟩
    simp [RateLimiterAllow, h]

/-- Witness for C6 at the hard-coded test ledger and an unknown key. -/
theorem claim_C6_allow_witness :
    ((RateLimiterAllow NewInMemoryRateLimiter "nobody" = .ok true ↔
        ∃ b, mapGet NewInMemoryRateLimiter "nobody" = some b ∧ 0 < b)
      ∧ (mapGet NewInMemoryRateLimiter "nobody" = none →
          RateLimiterAllow NewInMemoryRateLimiter "nobody" = .ok false)
      ∧ ∃ r, RateLimiterAllow NewInMemoryRateLimiter "nobody" = .ok r)
    ∧ RateLimiterAllow NewInMemoryRateLimiter "nobody" = .ok false :=
  ⟨claim_C6_allow NewInMemoryRateLimiter "nobody",
   (claim_C6_allow NewInMemoryRateLimiter "nobody").2.1 (by decide)⟩

/-! ## Claim C10: consume with overdraft on unknown keys -/

/-- Claim C10: `Consume` returns ok even for an absent key, sets the key's
balance to its previous balance (0 when absent) minus `t`, changes no other
key, and consuming `t > 0` against an unknown key leaves a negative-balance
entry after which `Allow` returns false. -/
theorem claim_C10_consume (balances : List (String × Int)) (apiKey : String)
    (t : Int) :
    RateLimiterConsume balances apiKey t = .ok (consumeBalances balances apiKey t)
    ∧ mapGet (consumeBalances balances apiKey t) apiKey =
        some ((mapGet balances apiKey).getD 0 - t)
    ∧ (∀ k, k ≠ apiKey → mapGet (consumeBalances balances apiKey t) k = mapGet balances k)
    ∧ (mapGet balances apiKey = none → 0 < t →
        RateLimiterAllow (consumeBalances balances apiKey t) apiKey = .ok false) := by
  refine ⟨rfl, mapGet_mapSet_self .., fun k hk => mapGet_mapSet_ne _ _ _ _ hk, ?_⟩
  intro habsent ht
  unfold RateLimiterAllow
  rw [show consumeBalances balances apiKey t =
        mapSet balances apiKey ((mapGet balances apiKey).getD 0 - t) from rfl,
      mapGet_mapSet_self, habsent]
  simp only [Option.getD_none]
  exact congrArg Except.ok (decide_eq_false (by omega))

/-- Witness for C10: consuming 5 tokens against a key absent from the test
ledger. -/
theorem claim_C10_consume_witness :
    (RateLimiterConsume NewInMemoryRateLimiter "unknown-key" 5 =
        .ok (consumeBalances NewInMemoryRateLimiter "unknown-key" 5)
      ∧ mapGet (consumeBalances NewInMemoryRateLimiter "unknown-key" 5) "unknown-key" =
          some ((mapGet NewInMemoryRateLimiter "unknown-key").getD 0 - 5)
      ∧ (∀ k, k ≠ "unknown-key" →
          mapGet (consumeBalances NewInMemoryRateLimiter "unknown-key" 5) k =
            mapGet NewInMemoryRateLimiter k)
      ∧ (mapGet NewInMemoryRateLimiter "unknown-key" = none → 0 < (5 : Int) →
          RateLimiterAllow (consumeBalances NewInMemoryRateLimiter "unknown-key" 5)
            "unknown-key" = .ok false))
    ∧ RateLimiterAllow (consumeBalances NewInMemoryRateLimiter "unknown-key" 5)
        "unknown-key" = .ok false :=
  ⟨claim_C10_consume NewInMemoryRateLimiter "unknown-key" 5,
   (claim_C10_consume NewInMemoryRateLimiter "unknown-key" 5).2.2.2 (by decide) (by decide)⟩

/-! ## Claim C8: the VRAM estimation table -/

/-- Claim C8: `estimateModelVRAM` lowercases the name and returns the first
matching row of the substring table (6 GiB for 8b/7b, 12 GiB for 13b/14b,
20 GiB for 30b/34b/32b, 40 GiB for 70b/72b/67b) and 2 GiB when no row matches;
multiple matches resolve to the first row in list order.  Stated as a
refinement against the spec's table-driven first-match lookup. -/
theorem claim_C8_vram_table (model : String) :
    estimateModelVRAM model = estimateModelVRAMSpec model := by
  unfold estimateModelVRAM estimateModelVRAMSpec vramTableSpec
  simp only [List.find?, List.any_cons, List.any_nil, Bool.or_false]
  cases h1 : strContains (toLowerStr model) "8b" <;>
    cases h2 : strContains (toLowerStr model) "7b" <;>
      cases h3 : strContains (toLowerStr model) "13b" <;>
        cases h4 : strContains (toLowerStr model) "14b" <;>
          cases h5 : strContains (toLowerStr model) "30b" <;>
            cases h6 : strContains (toLowerStr model) "34b" <;>
              cases h7 : strContains (toLowerStr model) "32b" <;>
                cases h8 : strContains (toLowerStr model) "70b" <;>
                  cases h9 : strContains (toLowerStr model) "72b" <;>
                    cases h10 : strContains (toLowerStr model) "67b" <;>
                      simp [h1, h2, h3, h4, h5, h6, h7, h8, h9, h10]

/-! ## Claim C2: mid-stream quota enforcement -/

theorem frameContentTokens_mkDataFrame (c : StreamChunk) :
    frameContentTokens (mkDataFrame c) = estimateTokens c.content := by
  simp [mkDataFrame, frameContentTokens]

theorem writtenContentTokens_map_mkDataFrame (cs : List StreamChunk) :
    writtenContentTokens (cs.map mkDataFrame) = sumTokens cs := by
  induction cs with
  | nil => rfl
  | cons c cs ih =>
    simp [writtenContentTokens, sumTokens, List.map_cons, List.sum_cons,
      frameContentTokens_mkDataFrame] at *
    omega

theorem deliver_stream_no_trip (cs : List StreamChunk) :
    ∀ st : StreamDispatchState, (∀ c ∈ cs, c.error = none) →
    st.totalTokens + sumTokens cs ≤ maxAllowed →
    deliverChunks streamSenderFunc cs st =
      ({ totalTokens := st.totalTokens + sumTokens cs,
         frames := st.frames ++ cs.map mkDataFrame }, none) := by
  induction cs with
  | nil => intro st _ _; simp [deliverChunks, sumTokens]
  | cons c cs ih =>
    intro st herr hle
    have hce : c.error = none := herr c (by simp)
    have hsum : sumTokens (c :: cs) = estimateTokens c.content + sumTokens cs := by
      simp [sumTokens]
    have hstep : ¬ maxAllowed < st.totalTokens + estimateTokens c.content := by
      rw [hsum] at hle; omega
    simp only [deliverChunks, streamSenderFunc, hce, if_neg hstep]
    rw [ih _ (fun d hd => herr d (by simp [hd])) (by rw [hsum] at hle; simp; omega)]
    rw [hsum]
    simp [List.append_assoc]
    omega

theorem deliver_stream_trip (cs : List StreamChunk) :
    ∀ (st : StreamDispatchState) (i : Nat), i < cs.length →
    (∀ c ∈ cs, c.error = none) →
    st.totalTokens + sumTokens (cs.take i) ≤ maxAllowed →
    maxAllowed < st.totalTokens + sumTokens (cs.take (i + 1)) →
    deliverChunks streamSenderFunc cs st =
      ({ totalTokens := st.totalTokens + sumTokens (cs.take (i + 1)),
         frames := st.frames ++ (cs.take i).map mkDataFrame ++
                   [.errorEvent "Token quota exceeded mid-stream" "quota_error"] },
       some "quota exceeded") := by
  induction cs with
  | nil => intro st i hi; exact absurd hi (by simp)
  | cons c cs ih =>
    intro st i hi herr hok htrip
    have hce : c.error = none := herr c (by simp)
    cases i with
    | zero =>
      have h1 : sumTokens ((c :: cs).take 1) = estimateTokens c.content := by
        simp [sumTokens]
      rw [h1] at htrip
      have h0 : sumTokens ((c :: cs).take 0) = 0 := rfl
      simp only [deliverChunks, streamSenderFunc, hce, if_pos htrip]
      simp [sumTokens]
    | succ j =>
      have htkc : (c :: cs).take (j + 1) = c :: cs.take j := by simp
      have htkc2 : (c :: cs).take (j + 2) = c :: cs.take (j + 1) := by simp
      have hsumj : sumTokens (c :: cs.take j) =
          estimateTokens c.content + sumTokens (cs.take j) := by simp [sumTokens]
      have hsumj2 : sumTokens (c :: cs.take (j + 1)) =
          estimateTokens c.content + sumTokens (cs.take (j + 1)) := by simp [sumTokens]
      rw [htkc, hsumj] at hok
      rw [htkc2, hsumj2] at htrip
      have hstep : ¬ maxAllowed < st.totalTokens + estimateTokens c.content := by omega
      simp only [deliverChunks, streamSenderFunc, hce, if_neg hstep]
      rw [ih _ j (by simpa using hi) (fun d hd => herr d (by simp [hd]))
            (by simp; omega) (by simp; omega)]
      simp [sumTokens, List.append_assoc]
      omega

/-- Claim C2: in the streaming branch, over error-free chunks, `totalTokens`
is the running sum of code points of the chunk contents (ceiling 50); while no
prefix exceeds the ceiling every chunk is written as a `data:` frame; the
first chunk whose addition makes the total exceed the ceiling causes the
sender to write a `quota_error` event and return a non-nil error without
writing that chunk, so the code points written over `delta.content` stay
within ceiling + the size of the tripping chunk. -/
theorem claim_C2_stream_quota :
    maxAllowed = 50
    ∧ (∀ cs : List StreamChunk, (∀ c ∈ cs, c.error = none) →
        sumTokens cs ≤ maxAllowed →
        deliverChunks streamSenderFunc cs { totalTokens := 0, frames := [] } =
          ({ totalTokens := sumTokens cs, frames := cs.map mkDataFrame }, none))
    ∧ (∀ (cs : List StreamChunk) (i : Nat) (hi : i < cs.length),
        (∀ c ∈ cs, c.error = none) →
        sumTokens (cs.take i) ≤ maxAllowed →
        maxAllowed < sumTokens (cs.take (i + 1)) →
        deliverChunks streamSenderFunc cs { totalTokens := 0, frames := [] } =
          ({ totalTokens := sumTokens (cs.take (i + 1)),
             frames := (cs.take i).map mkDataFrame ++
                       [.errorEvent "Token quota exceeded mid-stream" "quota_error"] },
           some "quota exceeded")
        ∧ writtenContentTokens ((cs.take i).map mkDataFrame ++
              [.errorEvent "Token quota exceeded mid-stream" "quota_error"])
            ≤ maxAllowed + estimateTokens (cs.get ⟨i, hi⟩).content) := by
  refine ⟨rfl, ?_, ?_⟩
  · intro cs herr hle
    simpa using deliver_stream_no_trip cs { totalTokens := 0, frames := [] } herr (by simpa)
  · intro cs i hi herr hok htrip
    constructor
    · simpa using deliver_stream_trip cs { totalTokens := 0, frames := [] } i hi herr
        (by simpa) (by simpa)
    · have hw : writtenContentTokens ((cs.take i).map mkDataFrame ++
          [SSEFrame.errorEvent "Token quota exceeded mid-stream" "quota_error"]) =
          sumTokens (cs.take i) := by
        simp [writtenContentTokens, frameContentTokens] at *
        simpa [writtenContentTokens] using writtenContentTokens_map_mkDataFrame (cs.take i)
      rw [hw]
      omega

/-- Witness for C2: three 20-code-point chunks against the ceiling 50; the
third chunk trips the quota. -/
theorem claim_C2_stream_quota_witness :
    deliverChunks streamSenderFunc
        [{ content := "aaaaaaaaaaaaaaaaaaaa", finishReason := "", error := none },
         { content := "bbbbbbbbbbbbbbbbbbbb", finishReason := "", error := none },
         { content := "cccccccccccccccccccc", finishReason := "", error := none }]
        { totalTokens := 0, frames := [] } =
      ({ totalTokens := 60,
         frames := [.dataFrame "aaaaaaaaaaaaaaaaaaaa" none,
                    .dataFrame "bbbbbbbbbbbbbbbbbbbb" none,
                    .errorEvent "Token quota exceeded mid-stream" "quota_error"] },
       some "quota exceeded")
    ∧ writtenContentTokens [SSEFrame.dataFrame "aaaaaaaaaaaaaaaaaaaa" none,
        .dataFrame "bbbbbbbbbbbbbbbbbbbb" none,
        .errorEvent "Token quota exceeded mid-stream" "quota_error"]
      ≤ maxAllowed + estimateTokens "cccccccccccccccccccc" :=
  claim_C2_stream_quota.2.2
    [{ content := "aaaaaaaaaaaaaaaaaaaa", finishReason := "", error := none },
     { content := "bbbbbbbbbbbbbbbbbbbb", finishReason := "", error := none },
     { content := "cccccccccccccccccccc", finishReason := "", error := none }]
    2 (by decide) (by decide) (by decide) (by decide)

/-! ## Claim C7: Consume is called exactly on Execute success -/

/-- Claim C7: in both dispatcher branches, `limiter.Consume` is called with
the accumulated `totalTokens` exactly when `worker.Execute` returns without
error (in streaming, after the `data: [DONE]` frame); on any Execute error
(timeout or otherwise) Consume is not called and the ledger is unchanged. -/
theorem claim_C7_consume_on_success (balances : List (String × Int))
    (apiKey : String) (chunks : List StreamChunk) (workerResult : Option String) :
    ((workerExecuteRun streamSenderFunc chunks workerResult
        { totalTokens := 0, frames := [] }).2 = none →
      handleStreamRequest balances apiKey chunks workerResult =
        { frames := (workerExecuteRun streamSenderFunc chunks workerResult
              { totalTokens := 0, frames := [] }).1.frames ++ [.doneFrame],
          balances := consumeBalances balances apiKey
            (Int.ofNat (workerExecuteRun streamSenderFunc chunks workerResult
              { totalTokens := 0, frames := [] }).1.totalTokens),
          consumed := some (workerExecuteRun streamSenderFunc chunks workerResult
            { totalTokens := 0, frames := [] }).1.totalTokens })
    ∧ (∀ e, (workerExecuteRun streamSenderFunc chunks workerResult
          { totalTokens := 0, frames := [] }).2 = some e →
        (handleStreamRequest balances apiKey chunks workerResult).consumed = none
        ∧ (handleStreamRequest balances apiKey chunks workerResult).balances = balances)
    ∧ ((workerExecuteRun nonStreamSenderFunc chunks workerResult
          { fullContent := "", totalTokens := 0 }).2 = none →
        handleNonStreamRequest balances apiKey chunks workerResult =
          { reply := .okJson "assistant"
              (workerExecuteRun nonStreamSenderFunc chunks workerResult
                { fullContent := "", totalTokens := 0 }).1.fullContent "stop",
            balances := consumeBalances balances apiKey
              (Int.ofNat (workerExecuteRun nonStreamSenderFunc chunks workerResult
                { fullContent := "", totalTokens := 0 }).1.totalTokens),
            consumed := some (workerExecuteRun nonStreamSenderFunc chunks workerResult
              { fullContent := "", totalTokens := 0 }).1.totalTokens })
    ∧ (∀ e, (workerExecuteRun nonStreamSenderFunc chunks workerResult
          { fullContent := "", totalTokens := 0 }).2 = some e →
        (handleNonStreamRequest balances apiKey chunks workerResult).consumed = none
        ∧ (handleNonStreamRequest balances apiKey chunks workerResult).balances = balances) := by
  refine ⟨?_, ?_, ?_, ?_⟩
  · intro hok
    rcases hrun : workerExecuteRun streamSenderFunc chunks workerResult
        { totalTokens := 0, frames := [] } with ⟨st', err'⟩
    rw [hrun] at hok
    simp only at hok
    subst hok
    simp [handleStreamRequest, hrun]
  · intro e herr
    rcases hrun : workerExecuteRun streamSenderFunc chunks workerResult
        { totalTokens := 0, frames := [] } with ⟨st', err'⟩
    rw [hrun] at herr
    simp only at herr
    subst herr
    by_cases ht : isTimeoutError e = true <;>
      simp [handleStreamRequest, hrun, ht]
  · intro hok
    rcases hrun : workerExecuteRun nonStreamSenderFunc chunks workerResult
        { fullContent := "", totalTokens := 0 } with ⟨st', err'⟩
    rw [hrun] at hok
    simp only at hok
    subst hok
    simp [handleNonStreamRequest, hrun]
  · intro e herr
    rcases hrun : workerExecuteRun nonStreamSenderFunc chunks workerResult
        { fullContent := "", totalTokens := 0 } with ⟨st', err'⟩
    rw [hrun] at herr
    simp only at herr
    subst herr
    by_cases ht : isTimeoutError e = true <;>
      simp [handleNonStreamRequest, hrun, ht]

/-- Witness for C7: a clean two-code-point stream consumes 2 tokens after the
done frame; a timed-out stream leaves the ledger alone. -/
theorem claim_C7_consume_on_success_witness :
    handleStreamRequest [("test-key-123", 100)] "test-key-123"
        [{ content := "hi", finishReason := "", error := none }] none =
      { frames := (workerExecuteRun streamSenderFunc
            [{ content := "hi", finishReason := "", error := none }] none
            { totalTokens := 0, frames := [] }).1.frames ++ [.doneFrame],
        balances := consumeBalances [("test-key-123", 100)] "test-key-123"
          (Int.ofNat (workerExecuteRun streamSenderFunc
            [{ content := "hi", finishReason := "", error := none }] none
            { totalTokens := 0, frames := [] }).1.totalTokens),
        consumed := some (workerExecuteRun streamSenderFunc
          [{ content := "hi", finishReason := "", error := none }] none
          { totalTokens := 0, frames := [] }).1.totalTokens }
    ∧ (handleStreamRequest [("test-key-123", 100)] "test-key-123"
        [{ content := "hi", finishReason := "", error := none }]
        (some "context deadline exceeded")).balances = [("test-key-123", 100)] :=
  ⟨(claim_C7_consume_on_success [("test-key-123", 100)] "test-key-123"
      [{ content := "hi", finishReason := "", error := none }] none).1 (by decide),
   ((claim_C7_consume_on_success [("test-key-123", 100)] "test-key-123"
      [{ content := "hi", finishReason := "", error := none }]
      (some "context deadline exceeded")).2.1 "context deadline exceeded" (by decide)).2⟩

/-! ## Claim C9: buffered round-trip -/

theorem deliver_nonstream_ok (cs : List StreamChunk) :
    ∀ st : NonStreamState, (∀ c ∈ cs, c.error = none) →
    deliverChunks nonStreamSenderFunc cs st =
      ({ fullContent := st.fullContent ++ joinContents cs,
         totalTokens := st.totalTokens + sumContentBytes cs }, none) := by
  induction cs with
  | nil => intro st _; simp [deliverChunks, joinContents, sumContentBytes]
  | cons c cs ih =>
    intro st herr
    have hce : c.error = none := herr c (by simp)
    simp only [deliverChunks, nonStreamSenderFunc, hce]
    rw [ih _ (fun d hd => herr d (by simp [hd]))]
    simp [joinContents, sumContentBytes, String.append_assoc]
    omega

/-- Claim C9: in the buffered branch, for every sequence of error-free chunks,
`choices[0].message.content` in the 200 reply equals the concatenation of the
chunks' contents in emission order. -/
theorem claim_C9_buffered_roundtrip (balances : List (String × Int))
    (apiKey : String) (chunks : List StreamChunk)
    (herr : ∀ c ∈ chunks, c.error = none) :
    (handleNonStreamRequest balances apiKey chunks none).reply =
      .okJson "assistant" (joinContents chunks) "stop" := by
  unfold handleNonStreamRequest workerExecuteRun
  rw [deliver_nonstream_ok chunks { fullContent := "", totalTokens := 0 } herr]
  simp

/-- Witness for C9: two chunks concatenate in order. -/
theorem claim_C9_buffered_roundtrip_witness :
    (handleNonStreamRequest [("test-key-123", 100)] "test-key-123"
        [{ content := "ab", finishReason := "", error := none },
         { content := "cd", finishReason := "stop", error := none }] none).reply =
      .okJson "assistant"
        (joinContents [{ content := "ab", finishReason := "", error := none },
                       { content := "cd", finishReason := "stop", error := none }]) "stop" :=
  claim_C9_buffered_roundtrip [("test-key-123", 100)] "test-key-123"
    [{ content := "ab", finishReason := "", error := none },
     { content := "cd", finishReason := "stop", error := none }] (by decide)

/-! ## Claim C5: `[DONE]` events and graceful completion

`processSSEMessage` returns ok on a `[DONE]` payload, but the scan loop of
`Execute` keeps reading: a stream that contains a `[DONE]` event and then a
malformed event makes `Execute` return a parse error, so "for every stream of
SSE lines containing such an event" the call does not always return ok. -/

/-- Counterexample to claim C5 as stated: the stream
`["data: [DONE]", "", "data: x", ""]` contains a `[DONE]` event, yet the call
returns the parse error for the following event (`x` is not valid JSON, so
`json.Unmarshal` fails and the modelled decode returns `none`). -/
theorem claim_C5_counterexample :
    executeScanLoop (fun _ => none) (fun (st : Unit) _ => (st, none))
        ["data: [DONE]", "", "data: x", ""] [] () =
      ((), some "failed to parse SSE data") := by decide

theorem processSSEMessage_done {σ : Type}
    (decode : String → Option ChatCompletionStreamResponse)
    (sender : σ → StreamChunk → σ × Option String) (st : σ) (rest : List String) :
    processSSEMessage decode ("data: [DONE]" :: rest) sender st = (st, none) := by
  have hp : strStartsWith "data: [DONE]" "data: " = true := by decide
  simp only [processSSEMessage, List.find?]
  rw [hp]
  rfl

theorem scanStep_nil_nil {σ : Type} (decode : String → Option ChatCompletionStreamResponse)
    (sender : σ → StreamChunk → σ × Option String) (st : σ) :
    executeScanLoop decode sender [] [] st = (st, none) := rfl

theorem scanStep_nil_cons {σ : Type} (decode : String → Option ChatCompletionStreamResponse)
    (sender : σ → StreamChunk → σ × Option String) (st : σ) (b : String)
    (buf : List String) :
    executeScanLoop decode sender [] (b :: buf) st =
      processSSEMessage decode (b :: buf) sender st := rfl

theorem scanStep_blank_nilbuf {σ : Type} (decode : String → Option ChatCompletionStreamResponse)
    (sender : σ → StreamChunk → σ × Option String) (st : σ) (rest : List String) :
    executeScanLoop decode sender ("" :: rest) [] st =
      executeScanLoop decode sender rest [] st := rfl

theorem scanStep_blank_consbuf {σ : Type} (decode : String → Option ChatCompletionStreamResponse)
    (sender : σ → StreamChunk → σ × Option String) (st : σ) (rest : List String)
    (b : String) (buf : List String) :
    executeScanLoop decode sender ("" :: rest) (b :: buf) st =
      match processSSEMessage decode (b :: buf) sender st with
      | (st', none) => executeScanLoop decode sender rest [] st'
      | (st', some e) => (st', some e) := rfl

theorem scanStep_line {σ : Type} (decode : String → Option ChatCompletionStreamResponse)
    (sender : σ → StreamChunk → σ × Option String) (st : σ) (line : String)
    (hline : ¬ line = "") (rest buf : List String) :
    executeScanLoop decode sender (line :: rest) buf st =
      executeScanLoop decode sender rest (buf ++ [line]) st := by
  simp only [executeScanLoop, if_neg hline]

theorem executeScanLoop_append_done {σ : Type}
    (decode : String → Option ChatCompletionStreamResponse)
    (sender : σ → StreamChunk → σ × Option String) :
    ∀ (lines lineBuffer : List String) (st st' : σ),
    executeScanLoop decode sender lines lineBuffer st = (st', none) →
    executeScanLoop decode sender (lines ++ ["", "data: [DONE]"]) lineBuffer st =
      (st', none) := by
  intro lines
  have hdone : ¬ ("data: [DONE]" : String) = "" := by decide
  induction lines with
  | nil =>
    intro lineBuffer st st' h
    cases lineBuffer with
    | nil =>
      rw [scanStep_nil_nil] at h
      obtain rfl : st = st' := congrArg Prod.fst h
      rw [List.nil_append, scanStep_blank_nilbuf, scanStep_line _ _ _ _ hdone,
        List.nil_append, scanStep_nil_cons]
      exact processSSEMessage_done decode sender st []
    | cons b buf =>
      rw [scanStep_nil_cons] at h
      rw [List.nil_append, scanStep_blank_consbuf, h]
      show executeScanLoop decode sender ["data: [DONE]"] [] st' = (st', none)
      rw [scanStep_line _ _ _ _ hdone, List.nil_append, scanStep_nil_cons]
      exact processSSEMessage_done decode sender st' []
  | cons line rest ih =>
    intro lineBuffer st st' h
    by_cases hline : line = ""
    · subst hline
      cases lineBuffer with
      | nil =>
        rw [scanStep_blank_nilbuf] at h
        rw [List.cons_append, scanStep_blank_nilbuf]
        exact ih [] st st' h
      | cons b buf =>
        rw [scanStep_blank_consbuf] at h
        rw [List.cons_append, scanStep_blank_consbuf]
        rcases hmsg : processSSEMessage decode (b :: buf) sender st with ⟨st₁, err₁⟩
        rw [hmsg] at h
        cases err₁ with
        | none =>
          have h' : executeScanLoop decode sender rest [] st₁ = (st', none) := h
          show executeScanLoop decode sender (rest ++ ["", "data: [DONE]"]) [] st₁ =
            (st', none)
          exact ih [] st₁ st' h'
        | some e => exact h
    · rw [scanStep_line _ _ _ _ hline] at h
      rw [List.cons_append, scanStep_line _ _ _ _ hline]
      exact ih (lineBuffer ++ [line]) st st' h

/-- Claim C5 (amended): a `[DONE]` event itself completes gracefully — it
produces no chunk and no error — and the call returns ok for every stream of
SSE lines in which the `[DONE]` event is final and all preceding events were
processed without error (not for arbitrary streams containing a `[DONE]`
event). -/
theorem claim_C5_done_graceful :
    (∀ (σ : Type) (decode : String → Option ChatCompletionStreamResponse)
       (sender : σ → StreamChunk → σ × Option String) (st : σ) (rest : List String),
       processSSEMessage decode ("data: [DONE]" :: rest) sender st = (st, none))
    ∧ (∀ (σ : Type) (decode : String → Option ChatCompletionStreamResponse)
         (sender : σ → StreamChunk → σ × Option String)
         (lines : List String) (st st' : σ),
         executeScanLoop decode sender lines [] st = (st', none) →
         executeScanLoop decode sender (lines ++ ["", "data: [DONE]"]) [] st =
           (st', none)) :=
  ⟨fun _ decode sender st rest => processSSEMessage_done decode sender st rest,
   fun _ decode sender lines st st' h =>
     executeScanLoop_append_done decode sender lines [] st st' h⟩

/-- Witness for C5 (amended): appending a final `[DONE]` event to a stream of
one well-formed event keeps the call's result ok. -/
theorem claim_C5_done_graceful_witness :
    executeScanLoop
        (fun s => if s = "ev" then some { choices := [] } else none)
        (fun (st : Nat) _ => (st + 1, none))
        (["data: ev"] ++ ["", "data: [DONE]"]) [] 0 = (0, none) :=
  claim_C5_done_graceful.2 Nat
    (fun s => if s = "ev" then some { choices := [] } else none)
    (fun st _ => (st + 1, none)) ["data: ev"] 0 0 (by decide)

/-! ## Router lemmas -/

theorem selectLoop_cands_sound (model : String) (rv : Nat) :
    ∀ (ws : List Worker) (fb : Option Worker) (cands : List workerScore)
      (c : workerScore), c ∈ (selectLoop model rv ws fb cands).2 →
      c ∈ cands ∨
        (c.worker.heartbeat = some c.profile
          ∧ isFallbackWorker c.worker.id = false
          ∧ isModelSupported model c.profile.supported = true
          ∧ rv ≤ c.profile.availableVRAM
          ∧ c.profile.activeTasks < c.profile.maxTasks) := by
  intro ws
  induction ws with
  | nil => intro fb cands c hc; exact Or.inl hc
  | cons w ws ih =>
    intro fb cands c hc
    cases hw : w.heartbeat with
    | none =>
      rw [show selectLoop model rv (w :: ws) fb cands =
            selectLoop model rv ws fb cands by simp [selectLoop, hw]] at hc
      exact ih fb cands c hc
    | some profile =>
      cases hfb : isFallbackWorker w.id with
      | true =>
        rw [show selectLoop model rv (w :: ws) fb cands =
              selectLoop model rv ws (some w) cands by simp [selectLoop, hw, hfb]] at hc
        exact ih (some w) cands c hc
      | false =>
        cases hsup : isModelSupported model profile.supported with
        | false =>
          rw [show selectLoop model rv (w :: ws) fb cands =
                selectLoop model rv ws fb cands by simp [selectLoop, hw, hfb, hsup]] at hc
          exact ih fb cands c hc
        | true =>
          by_cases hvram : profile.availableVRAM < rv
          · rw [show selectLoop model rv (w :: ws) fb cands =
                  selectLoop model rv ws fb cands by
                simp [selectLoop, hw, hfb, hsup, hvram]] at hc
            exact ih fb cands c hc
          · by_cases htask : profile.maxTasks ≤ profile.activeTasks
            · rw [show selectLoop model rv (w :: ws) fb cands =
                    selectLoop model rv ws fb cands by
                  simp [selectLoop, hw, hfb, hsup, hvram, htask]] at hc
              exact ih fb cands c hc
            · rw [show selectLoop model rv (w :: ws) fb cands =
                    selectLoop model rv ws fb
                      (cands ++
                        [{ worker := w, profile := profile,
                           vramScore := calculateVRAMScore profile.availableVRAM profile.totalVRAM,
                           loadScore := calculateLoadScore profile.activeTasks profile.maxTasks }]) by
                  simp [selectLoop, hw, hfb, hsup, hvram, htask]] at hc
              rcases ih _ _ c hc with hmem | hgood
              · rcases List.mem_append.mp hmem with hold | hnew
                · exact Or.inl hold
                · obtain rfl : c = _ := List.mem_singleton.mp hnew
                  exact Or.inr ⟨hw, hfb, hsup, Nat.le_of_not_lt hvram,
                    lt_of_not_le htask⟩
              · exact Or.inr hgood

theorem selectLoop_fb_sound (model : String) (rv : Nat) :
    ∀ (ws : List Worker) (fb : Option Worker) (cands : List workerScore)
      (w : Worker), (selectLoop model rv ws fb cands).1 = some w →
      fb = some w ∨
        (w ∈ ws ∧ isFallbackWorker w.id = true ∧ ∃ p, w.heartbeat = some p) := by
  intro ws
  induction ws with
  | nil => intro fb cands w h; exact Or.inl h
  | cons w₀ ws ih =>
    intro fb cands w h
    cases hw : w₀.heartbeat with
    | none =>
      rw [show selectLoop model rv (w₀ :: ws) fb cands =
            selectLoop model rv ws fb cands by simp [selectLoop, hw]] at h
      rcases ih fb cands w h with h' | ⟨hmem, hfb', hp⟩
      · exact Or.inl h'
      · exact Or.inr ⟨by simp [hmem], hfb', hp⟩
    | some profile =>
      cases hfb : isFallbackWorker w₀.id with
      | true =>
        rw [show selectLoop model rv (w₀ :: ws) fb cands =
              selectLoop model rv ws (some w₀) cands by simp [selectLoop, hw, hfb]] at h
        rcases ih (some w₀) cands w h with h' | ⟨hmem, hfb', hp⟩
        · obtain rfl : w₀ = w := Option.some.inj h'
          exact Or.inr ⟨by simp, hfb, ⟨profile, hw⟩⟩
        · exact Or.inr ⟨by simp [hmem], hfb', hp⟩
      | false =>
        cases hsup : isModelSupported model profile.supported with
        | false =>
          rw [show selectLoop model rv (w₀ :: ws) fb cands =
                selectLoop model rv ws fb cands by simp [selectLoop, hw, hfb, hsup]] at h
          rcases ih fb cands w h with h' | ⟨hmem, hfb', hp⟩
          · exact Or.inl h'
          · exact Or.inr ⟨by simp [hmem], hfb', hp⟩
        | true =>
          by_cases hvram : profile.availableVRAM < rv
          · rw [show selectLoop model rv (w₀ :: ws) fb cands =
                  selectLoop model rv ws fb cands by
                simp [selectLoop, hw, hfb, hsup, hvram]] at h
            rcases ih fb cands w h with h' | ⟨hmem, hfb', hp⟩
            · exact Or.inl h'
            · exact Or.inr ⟨by simp [hmem], hfb', hp⟩
          · by_cases htask : profile.maxTasks ≤ profile.activeTasks
            · rw [show selectLoop model rv (w₀ :: ws) fb cands =
                    selectLoop model rv ws fb cands by
                  simp [selectLoop, hw, hfb, hsup, hvram, htask]] at h
              rcases ih fb cands w h with h' | ⟨hmem, hfb', hp⟩
              · exact Or.inl h'
              · exact Or.inr ⟨by simp [hmem], hfb', hp⟩
            · rw [show selectLoop model rv (w₀ :: ws) fb cands =
                    selectLoop model rv ws fb
                      (cands ++
                        [{ worker := w₀, profile := profile,
                           vramScore := calculateVRAMScore profile.availableVRAM profile.totalVRAM,
                           loadScore := calculateLoadScore profile.activeTasks profile.maxTasks }]) by
                  simp [selectLoop, hw, hfb, hsup, hvram, htask]] at h
              rcases ih fb _ w h with h' | ⟨hmem, hfb', hp⟩
              · exact Or.inl h'
              · exact Or.inr ⟨by simp [hmem], hfb', hp⟩

theorem selectLoop_fb_none (model : String) (rv : Nat) :
    ∀ (ws : List Worker) (fb : Option Worker) (cands : List workerScore),
    (selectLoop model rv ws fb cands).1 = none →
    fb = none ∧ ∀ w ∈ ws, w.heartbeat = none ∨ isFallbackWorker w.id = false := by
  intro ws
  induction ws with
  | nil => intro fb cands h; exact ⟨h, by simp⟩
  | cons w₀ ws ih =>
    intro fb cands h
    cases hw : w₀.heartbeat with
    | none =>
      rw [show selectLoop model rv (w₀ :: ws) fb cands =
            selectLoop model rv ws fb cands by simp [selectLoop, hw]] at h
      obtain ⟨hfb, htail⟩ := ih fb cands h
      refine ⟨hfb, ?_⟩
      intro w hwmem
      rcases List.mem_cons.mp hwmem with rfl | hmem
      · exact Or.inl hw
      · exact htail w hmem
    | some profile =>
      cases hfb : isFallbackWorker w₀.id with
      | true =>
        rw [show selectLoop model rv (w₀ :: ws) fb cands =
              selectLoop model rv ws (some w₀) cands by simp [selectLoop, hw, hfb]] at h
        obtain ⟨hfb', -⟩ := ih (some w₀) cands h
        exact absurd hfb' (by simp)
      | false =>
        have hcont : ∀ cands' : List workerScore,
            (selectLoop model rv ws fb cands').1 = none →
            fb = none ∧ ∀ w ∈ w₀ :: ws, w.heartbeat = none ∨ isFallbackWorker w.id = false := by
          intro cands' h'
          obtain ⟨hfbn, htail⟩ := ih fb cands' h'
          refine ⟨hfbn, ?_⟩
          intro w hwmem
          rcases List.mem_cons.mp hwmem with rfl | hmem
          · exact Or.inr hfb
          · exact htail w hmem
        cases hsup : isModelSupported model profile.supported with
        | false =>
          rw [show selectLoop model rv (w₀ :: ws) fb cands =
                selectLoop model rv ws fb cands by simp [selectLoop, hw, hfb, hsup]] at h
          exact hcont cands h
        | true =>
          by_cases hvram : profile.availableVRAM < rv
          · rw [show selectLoop model rv (w₀ :: ws) fb cands =
                  selectLoop model rv ws fb cands by
                simp [selectLoop, hw, hfb, hsup, hvram]] at h
            exact hcont cands h
          · by_cases htask : profile.maxTasks ≤ profile.activeTasks
            · rw [show selectLoop model rv (w₀ :: ws) fb cands =
                    selectLoop model rv ws fb cands by
                  simp [selectLoop, hw, hfb, hsup, hvram, htask]] at h
              exact hcont cands h
            · rw [show selectLoop model rv (w₀ :: ws) fb cands =
                    selectLoop model rv ws fb
                      (cands ++
                        [{ worker := w₀, profile := profile,
                           vramScore := calculateVRAMScore profile.availableVRAM profile.totalVRAM,
                           loadScore := calculateLoadScore profile.activeTasks profile.maxTasks }]) by
                  simp [selectLoop, hw, hfb, hsup, hvram, htask]] at h
              exact hcont _ h

theorem selectBestGo_mem (vw lw : ℚ) :
    ∀ (cs : List workerScore) (best : Option Worker) (b : ℚ) (w : Worker),
    selectBestGo vw lw cs best b = some w →
    best = some w ∨ ∃ c ∈ cs, c.worker = w := by
  intro cs
  induction cs with
  | nil => intro best b w h; exact Or.inl h
  | cons c cs ih =>
    intro best b w h
    simp only [selectBestGo] at h
    by_cases hlt : b < combinedScore vw lw c
    · rw [if_pos hlt] at h
      rcases ih _ _ _ h with h' | ⟨c', hc', hwc⟩
      · exact Or.inr ⟨c, by simp, Option.some.inj h'⟩
      · exact Or.inr ⟨c', by simp [hc'], hwc⟩
    · rw [if_neg hlt] at h
      rcases ih _ _ _ h with h' | ⟨c', hc', hwc⟩
      · exact Or.inl h'
      · exact Or.inr ⟨c', by simp [hc'], hwc⟩

theorem selectBestGo_le (vw lw : ℚ) :
    ∀ (cs : List workerScore) (best : Option Worker) (b : ℚ),
    (∀ c ∈ cs, combinedScore vw lw c ≤ b) →
    selectBestGo vw lw cs best b = best := by
  intro cs
  induction cs with
  | nil => intro best b _; rfl
  | cons c cs ih =>
    intro best b hle
    have hc : combinedScore vw lw c ≤ b := hle c (by simp)
    simp only [selectBestGo]
    rw [if_neg (not_lt.mpr hc)]
    exact ih best b (fun d hd => hle d (by simp [hd]))

theorem selectBestGo_max (vw lw : ℚ) :
    ∀ (cs : List workerScore) (best : Option Worker) (b : ℚ),
    (∃ c ∈ cs, b < combinedScore vw lw c) →
    ∃ (i : Nat) (h : i < cs.length),
      selectBestGo vw lw cs best b = some ((cs.get ⟨i, h⟩).worker)
      ∧ b < combinedScore vw lw (cs.get ⟨i, h⟩)
      ∧ (∀ (j : Nat) (hj : j < cs.length),
          combinedScore vw lw (cs.get ⟨j, hj⟩) ≤ combinedScore vw lw (cs.get ⟨i, h⟩))
      ∧ (∀ (j : Nat) (hj : j < cs.length), j < i →
          combinedScore vw lw (cs.get ⟨j, hj⟩) < combinedScore vw lw (cs.get ⟨i, h⟩)) := by
  intro cs
  induction cs with
  | nil => rintro best b ⟨c, hc, -⟩; exact absurd hc (List.not_mem_nil c)
  | cons c cs ih =>
    rintro best b hex
    by_cases hcb : b < combinedScore vw lw c
    · by_cases h2 : ∃ c' ∈ cs, combinedScore vw lw c < combinedScore vw lw c'
      · obtain ⟨i', hi', hres, hgt, hall, hfirst⟩ := ih (some c.worker) (combinedScore vw lw c) h2
        refine ⟨i' + 1, by simpa using Nat.succ_lt_succ hi', ?_, ?_, ?_, ?_⟩
        · simp only [selectBestGo]
          rw [if_pos hcb]
          simpa using hres
        · simpa using lt_trans hcb hgt
        · intro j hj
          cases j with
          | zero => simpa using le_of_lt hgt
          | succ j => simpa using hall j (by simpa using Nat.lt_of_succ_lt_succ hj)
        · intro j hj hji
          cases j with
          | zero => simpa using hgt
          | succ j =>
            simpa using hfirst j (by simpa using Nat.lt_of_succ_lt_succ hj)
              (Nat.lt_of_succ_lt_succ hji)
      · push_neg at h2
        refine ⟨0, by simp, ?_, by simpa using hcb, ?_, ?_⟩
        · simp only [selectBestGo]
          rw [if_pos hcb]
          simpa using selectBestGo_le vw lw cs (some c.worker) (combinedScore vw lw c) h2
        · intro j hj
          cases j with
          | zero => simp
          | succ j =>
            simpa using h2 (cs.get ⟨j, by simpa using Nat.lt_of_succ_lt_succ hj⟩)
              (List.get_mem ..)
        · intro j hj hji
          exact absurd hji (Nat.not_lt_zero j)
    · obtain ⟨c', hc', hbc'⟩ := hex
      have h2 : ∃ c' ∈ cs, b < combinedScore vw lw c' := by
        rcases List.mem_cons.mp hc' with rfl | hmem
        · exact absurd hbc' hcb
        · exact ⟨c', hmem, hbc'⟩
      obtain ⟨i', hi', hres, hgt, hall, hfirst⟩ := ih best b h2
      have hcle : combinedScore vw lw c ≤ b := not_lt.mp hcb
      refine ⟨i' + 1, by simpa using Nat.succ_lt_succ hi', ?_, ?_, ?_, ?_⟩
      · simp only [selectBestGo]
        rw [if_neg hcb]
        simpa using hres
      · simpa using hgt
      · intro j hj
        cases j with
        | zero => simpa using le_of_lt (lt_of_le_of_lt hcle hgt)
        | succ j => simpa using hall j (by simpa using Nat.lt_of_succ_lt_succ hj)
      · intro j hj hji
        cases j with
        | zero => simpa using lt_of_le_of_lt hcle hgt
        | succ j =>
          simpa using hfirst j (by simpa using Nat.lt_of_succ_lt_succ hj)
            (Nat.lt_of_succ_lt_succ hji)

/-! ## Claim C1: hard filters on every returned non-fallback worker -/

/-- Claim C1: `Select` never returns a non-fallback worker that failed a hard
filter — every non-fallback worker it returns had a successful heartbeat whose
profile supports the model, has at least the estimated VRAM available, and is
under its concurrency cap. -/
theorem claim_C1_hard_filters (r : ScoreRouter) (workers : List Worker)
    (req : InferenceRequest) (w : Worker)
    (hsel : r.Select workers req = .ok (some w))
    (hnf : isFallbackWorker w.id = false) :
    ∃ p : WorkerProfile, w.heartbeat = some p
      ∧ isModelSupported req.model p.supported = true
      ∧ estimateModelVRAM req.model ≤ p.availableVRAM
      ∧ p.activeTasks < p.maxTasks := by
  unfold ScoreRouter.Select at hsel
  rcases hloop : selectLoop req.model (estimateModelVRAM req.model) workers none []
    with ⟨fb, cands⟩
  rw [hloop] at hsel
  have hsel' : (if cands.isEmpty = true then
      (match fb with
        | some fbw => (Except.ok (some fbw) : Except String (Option Worker))
        | none => Except.error "no available workers for request")
      else Except.ok (selectBestWorker cands r.vramWeight r.loadWeight)) =
      Except.ok (some w) := hsel
  cases hempty : cands.isEmpty with
  | true =>
    rw [if_pos hempty] at hsel'
    cases fb with
    | none => exact absurd hsel' (by simp)
    | some fbw =>
      have hww : fbw = w := by simpa using hsel'
      rcases selectLoop_fb_sound req.model (estimateModelVRAM req.model) workers
          none [] w (by rw [hloop]; simp [hww]) with habs | ⟨-, hfbt, -⟩
      · exact absurd habs (by simp)
      · rw [hfbt] at hnf
        exact absurd hnf (by simp)
  | false =>
    rw [if_neg (by simp [hempty])] at hsel'
    have hbest : selectBestGo r.vramWeight r.loadWeight cands none (-1) = some w := by
      simpa [selectBestWorker] using hsel'
    rcases selectBestGo_mem r.vramWeight r.loadWeight cands none (-1) w hbest with
      habs | ⟨c, hcmem, hcw⟩
    · exact absurd habs (by simp)
    · have hc := selectLoop_cands_sound req.model (estimateModelVRAM req.model)
        workers none [] c (by rw [hloop]; exact hcmem)
      rcases hc with habs | ⟨hhb, -, hsup, hvram, htask⟩
      · exact absurd habs (List.not_mem_nil c)
      · exact ⟨c.profile, by rw [← hcw]; exact hhb, hsup, hvram, htask⟩

/-- Witness for C1: a single non-fallback worker that passes every filter is
selected, and the filters indeed held for it. -/
theorem claim_C1_hard_filters_witness :
    ∃ p : WorkerProfile,
      (⟨"w1", some ⟨"w1", ["m"], 4 * GiB, 4 * GiB, 0, 2⟩⟩ : Worker).heartbeat = some p
      ∧ isModelSupported "m" p.supported = true
      ∧ estimateModelVRAM "m" ≤ p.availableVRAM
      ∧ p.activeTasks < p.maxTasks :=
  claim_C1_hard_filters NewScoreRouter
    [⟨"w1", some ⟨"w1", ["m"], 4 * GiB, 4 * GiB, 0, 2⟩⟩]
    { traceID := "t", model := "m", messages := [], temperature := 0, stream := true }
    ⟨"w1", some ⟨"w1", ["m"], 4 * GiB, 4 * GiB, 0, 2⟩⟩
    (by norm_num [NewScoreRouter, ScoreRouter.Select, selectLoop, isFallbackWorker,
      isModelSupported, toLowerStr, strContains, charsContain, charsStartWith,
      estimateModelVRAM, GiB, selectBestWorker, selectBestGo, combinedScore,
      calculateVRAMScore, calculateLoadScore])
    (by decide)

/-! ## Claim C3: greatest composite score wins, first on ties -/

/-- Claim C3: with the default weights (both 1.0), for every non-empty
candidate pool (whose scores are non-negative, as phase 1 always produces)
`selectBestWorker` returns the candidate with the strictly greatest composite
score `S = vramScore·w_vram + loadScore·w_load`; on ties the first candidate
in traversal order wins. -/
theorem claim_C3_best_score (candidates : List workerScore)
    (hne : candidates ≠ [])
    (hnn : ∀ c ∈ candidates, 0 ≤ c.vramScore ∧ 0 ≤ c.loadScore) :
    NewScoreRouter.vramWeight = 1 ∧ NewScoreRouter.loadWeight = 1
    ∧ ∃ (i : Nat) (h : i < candidates.length),
      selectBestWorker candidates 1 1 = some ((candidates.get ⟨i, h⟩).worker)
      ∧ (∀ (j : Nat) (hj : j < candidates.length),
          combinedScore 1 1 (candidates.get ⟨j, hj⟩) ≤
            combinedScore 1 1 (candidates.get ⟨i, h⟩))
      ∧ (∀ (j : Nat) (hj : j < candidates.length), j < i →
          combinedScore 1 1 (candidates.get ⟨j, hj⟩) <
            combinedScore 1 1 (candidates.get ⟨i, h⟩)) := by
  refine ⟨rfl, rfl, ?_⟩
  obtain ⟨c₀, cs, rfl⟩ : ∃ c₀ cs, candidates = c₀ :: cs := by
    cases candidates with
    | nil => exact absurd rfl hne
    | cons a l => exact ⟨a, l, rfl⟩
  have h0 := hnn c₀ (by simp)
  have hex : ∃ c ∈ c₀ :: cs, (-1 : ℚ) < combinedScore 1 1 c := by
    refine ⟨c₀, by simp, ?_⟩
    have h1 := h0.1
    have h2 := h0.2
    unfold combinedScore
    nlinarith
  obtain ⟨i, hi, hres, -, hall, hfirst⟩ := selectBestGo_max 1 1 (c₀ :: cs) none (-1) hex
  exact ⟨i, hi, hres, hall, hfirst⟩

/-- Witness for C3 at a two-candidate pool (scores 50+50 against 80+90). -/
theorem claim_C3_best_score_witness :
    NewScoreRouter.vramWeight = 1 ∧ NewScoreRouter.loadWeight = 1
    ∧ ∃ (i : Nat) (h : i < pool2.length),
      selectBestWorker pool2 1 1 = some ((pool2.get ⟨i, h⟩).worker)
      ∧ (∀ (j : Nat) (hj : j < pool2.length),
          combinedScore 1 1 (pool2.get ⟨j, hj⟩) ≤ combinedScore 1 1 (pool2.get ⟨i, h⟩))
      ∧ (∀ (j : Nat) (hj : j < pool2.length), j < i →
          combinedScore 1 1 (pool2.get ⟨j, hj⟩) < combinedScore 1 1 (pool2.get ⟨i, h⟩)) :=
  claim_C3_best_score pool2 (by simp [pool2])
    (by intro c hc
        rcases List.mem_cons.mp hc with rfl | hc2
        · norm_num [poolA]
        · rcases List.mem_cons.mp hc2 with rfl | hc3
          · norm_num [poolB]
          · exact absurd hc3 (List.not_mem_nil c))

/-! ## Claim C4: fallback behavior and the only error case -/

/-- Claim C4: when the candidate pool is empty and a fallback was seen,
`Select` returns the retained fallback worker (a member of the input with a
successful heartbeat and a fallback ID) without applying the hard filters;
when the pool is empty and no fallback was seen it fails with
"no available workers for request"; and it errors in no other case. -/
theorem claim_C4_fallback_and_errors (r : ScoreRouter) (workers : List Worker)
    (req : InferenceRequest) :
    (∀ w : Worker,
      (selectLoop req.model (estimateModelVRAM req.model) workers none []).2 = [] →
      (selectLoop req.model (estimateModelVRAM req.model) workers none []).1 = some w →
      r.Select workers req = .ok (some w)
        ∧ w ∈ workers ∧ isFallbackWorker w.id = true ∧ w.heartbeat ≠ none)
    ∧ ((selectLoop req.model (estimateModelVRAM req.model) workers none []).2 = [] →
       (selectLoop req.model (estimateModelVRAM req.model) workers none []).1 = none →
       r.Select workers req = .error "no available workers for request"
         ∧ ¬ ∃ w ∈ workers, w.heartbeat ≠ none ∧ isFallbackWorker w.id = true)
    ∧ (∀ e, r.Select workers req = .error e →
        (selectLoop req.model (estimateModelVRAM req.model) workers none []).2 = []
        ∧ (selectLoop req.model (estimateModelVRAM req.model) workers none []).1 = none
        ∧ e = "no available workers for request") := by
  refine ⟨?_, ?_, ?_⟩
  · intro w hcands hfb
    have hc : (selectLoop req.model (estimateModelVRAM req.model) workers none []).2
        = [] := hcands
    constructor
    · unfold ScoreRouter.Select
      rcases hloop : selectLoop req.model (estimateModelVRAM req.model) workers none []
        with ⟨fb, cands⟩
      rw [hloop] at hc hfb
      have hc' : cands = [] := hc
      have hf' : fb = some w := hfb
      subst hc'
      subst hf'
      rfl
    · rcases selectLoop_fb_sound req.model (estimateModelVRAM req.model) workers
          none [] w hfb with habs | ⟨hmem, hfbt, ⟨p, hp⟩⟩
      · exact absurd habs (by simp)
      · exact ⟨hmem, hfbt, by simp [hp]⟩
  · intro hcands hfbn
    constructor
    · unfold ScoreRouter.Select
      rcases hloop : selectLoop req.model (estimateModelVRAM req.model) workers none []
        with ⟨fb, cands⟩
      rw [hloop] at hcands hfbn
      have hc' : cands = [] := hcands
      have hf' : fb = none := hfbn
      subst hc'
      subst hf'
      rfl
    · rintro ⟨w, hwmem, hhb, hfbt⟩
      obtain ⟨-, hall⟩ := selectLoop_fb_none req.model (estimateModelVRAM req.model)
        workers none [] hfbn
      rcases hall w hwmem with hnone | hfalse
      · exact hhb hnone
      · rw [hfalse] at hfbt
        exact absurd hfbt (by simp)
  · intro e hsel
    unfold ScoreRouter.Select at hsel
    rcases hloop : selectLoop req.model (estimateModelVRAM req.model) workers none []
      with ⟨fb, cands⟩
    rw [hloop] at hsel
    have hsel' : (if cands.isEmpty = true then
        (match fb with
          | some fbw => (Except.ok (some fbw) : Except String (Option Worker))
          | none => Except.error "no available workers for request")
        else Except.ok (selectBestWorker cands r.vramWeight r.loadWeight)) =
        Except.error e := hsel
    cases hempty : cands.isEmpty with
    | false =>
      rw [if_neg (by simp [hempty])] at hsel'
      exact absurd hsel' (by simp)
    | true =>
      rw [if_pos hempty] at hsel'
      have hc : cands = [] := by
        cases cands with
        | nil => rfl
        | cons a l => simp [List.isEmpty] at hempty
      cases fb with
      | some fbw => exact absurd hsel' (by simp)
      | none =>
        subst hc
        exact ⟨rfl, rfl, by simpa using hsel'.symm⟩

/-- Witness for C4: one cloud worker only — the pool is empty, the fallback is
returned and errors do not occur; filters were never applied to it (its
profile has zero VRAM and a zero task cap). -/
theorem claim_C4_fallback_and_errors_witness :
    NewScoreRouter.Select [⟨"cloud-x", some ⟨"cloud-x", ["*"], 0, 0, 0, 0⟩⟩]
        { traceID := "t", model := "m", messages := [], temperature := 0, stream := true } =
      .ok (some ⟨"cloud-x", some ⟨"cloud-x", ["*"], 0, 0, 0, 0⟩⟩)
    ∧ (⟨"cloud-x", some ⟨"cloud-x", ["*"], 0, 0, 0, 0⟩⟩ : Worker) ∈
        [(⟨"cloud-x", some ⟨"cloud-x", ["*"], 0, 0, 0, 0⟩⟩ : Worker)]
    ∧ isFallbackWorker "cloud-x" = true
    ∧ (⟨"cloud-x", some ⟨"cloud-x", ["*"], 0, 0, 0, 0⟩⟩ : Worker).heartbeat ≠ none :=
  (claim_C4_fallback_and_errors NewScoreRouter
    [⟨"cloud-x", some ⟨"cloud-x", ["*"], 0, 0, 0, 0⟩⟩]
    { traceID := "t", model := "m", messages := [], temperature := 0, stream := true }).1
    ⟨"cloud-x", some ⟨"cloud-x", ["*"], 0, 0, 0, 0⟩⟩
    (by decide) (by decide)

end ZamGateway
